import Mathlib

/-!
Shallow embedding of the episode generator in
`problems/interruption_swap_recall.py` (numpy/pytorch), together with the
consumed `utils.add_ctrl` / `utils.augment` interface, which is not part of
the provided sources and is therefore modelled from the specification.

A data block `[batch, time, bits]` is embedded per batch element as a
time-major list of rows, each row a list of integer bit values (the
generator only ever stores 0/1 bits).  The rotation parameter is a real
number in the source and is embedded as an exact rational.
-/

abbrev Row := List ℤ

abbrev Block := List Row

/-- Embedding of `np.round` on exact rationals: round half to even
(banker's rounding), which is numpy's rounding rule. -/
def npRound (q : ℚ) : ℤ :=
  if q - (⌊q⌋ : ℚ) < 1/2 then ⌊q⌋
  else if 1/2 < q - (⌊q⌋ : ℚ) then ⌊q⌋ + 1
  else if ⌊q⌋ % 2 = 0 then ⌊q⌋ else ⌊q⌋ + 1

/-- The integer shift amount computed inside `rotate`
(`problems/interruption_swap_recall.py`, lines 14-19): relative mode when
`-1 <= rotation <= 1` multiplies by the length, then `np.round`, then the
Python modulo (sign of the divisor, hence in `[0, L)` for `L > 0`), then
`int(...)`. -/
def shiftAmount (rotation : ℚ) (seq_length : ℕ) : ℕ :=
  (npRound (if -1 ≤ rotation ∧ rotation ≤ 1 then rotation * (seq_length : ℚ) else rotation)
    % (seq_length : ℤ)).toNat

/-- Embedding of `rotate(seq, rotation, seq_length)`
(`problems/interruption_swap_recall.py`, lines 8-22), acting on one batch
element: `np.concatenate((seq[:, rotation:, :], seq[:, :rotation, :]), axis=1)`
becomes dropping then taking the shift amount along the time axis. -/
def rotate (seq : Block) (rotation : ℚ) (seq_length : ℕ) : Block :=
  seq.drop (shiftAmount rotation seq_length) ++ seq.take (shiftAmount rotation seq_length)

theorem npRound_intCast (n : ℤ) : npRound (n : ℚ) = n := by
  unfold npRound
  simp [Int.floor_intCast]

theorem npRound_eq_of_eq_intCast (q : ℚ) (n : ℤ) (h : q = (n : ℚ)) : npRound q = n := by
  rw [h, npRound_intCast]

/-- C10: rotation values of exactly `+1` or `-1` fall into relative mode,
denote a whole-length shift, and reduce to the identity on a block whose
time axis has length `L ≥ 1`. -/
theorem rotate_unit_rotation_identity (b : Block) (L : ℕ) (hL : 1 ≤ L)
    (hlen : b.length = L) : rotate b 1 L = b ∧ rotate b (-1) L = b := by
  have h1 : shiftAmount 1 L = 0 := by
    unfold shiftAmount
    rw [if_pos (by norm_num : (-1 : ℚ) ≤ 1 ∧ (1 : ℚ) ≤ 1)]
    rw [npRound_eq_of_eq_intCast _ (L : ℤ) (by push_cast; ring), Int.emod_self]
    rfl
  have h2 : shiftAmount (-1) L = 0 := by
    unfold shiftAmount
    rw [if_pos (by norm_num : (-1 : ℚ) ≤ -1 ∧ (-1 : ℚ) ≤ 1)]
    rw [npRound_eq_of_eq_intCast _ (-(L : ℤ)) (by push_cast; ring)]
    rw [Int.emod_eq_zero_of_dvd ⟨-1, by ring⟩]
    rfl
  constructor
  · unfold rotate
    rw [h1]
    simp
  · unfold rotate
    rw [h2]
    simp

/-- Closed witness for `rotate_unit_rotation_identity` at a concrete block. -/
theorem rotate_unit_rotation_identity_witness :
    rotate [[(1 : ℤ)], [2]] 1 2 = [[(1 : ℤ)], [2]] ∧
    rotate [[(1 : ℤ)], [2]] (-1) 2 = [[(1 : ℤ)], [2]] :=
  rotate_unit_rotation_identity [[(1 : ℤ)], [2]] 2 (by decide) (by decide)

/-- C6: relative-mode and absolute-mode rotation agree whenever the rotation
amounts coincide after rounding: for `-1 ≤ r ≤ 1` (relative) and `a` outside
`[-1, 1]` (absolute mode), `round(r * L) = round(a)` forces equal results. -/
theorem rotate_relative_absolute_agree (b : Block) (r a : ℚ) (L : ℕ)
    (hr1 : -1 ≤ r) (hr2 : r ≤ 1) (ha : ¬(-1 ≤ a ∧ a ≤ 1))
    (h : npRound (r * (L : ℚ)) = npRound a) : rotate b r L = rotate b a L := by
  have hs : shiftAmount r L = shiftAmount a L := by
    unfold shiftAmount
    rw [if_pos ⟨hr1, hr2⟩, if_neg ha, h]
  unfold rotate
  rw [hs]

/-- Closed witness for `rotate_relative_absolute_agree`:
`r = 1/2`, `a = 3`, `L = 6` have `round(r * L) = 3 = round(a)`. -/
theorem rotate_relative_absolute_agree_witness :
    rotate [[(1 : ℤ)], [2], [3], [4], [5], [6]] (1/2) 6 =
      rotate [[(1 : ℤ)], [2], [3], [4], [5], [6]] 3 6 :=
  rotate_relative_absolute_agree [[(1 : ℤ)], [2], [3], [4], [5], [6]] (1/2) 3 6
    (by norm_num) (by norm_num) (by norm_num)
    (by rw [npRound_eq_of_eq_intCast _ 3 (by norm_num),
            npRound_eq_of_eq_intCast _ 3 (by norm_num)])

/-- C1 (code bug): at block `[[1],[0],[0]]`, relative rotation `1/3` of
length `3` (offset `1`), the code produces the LEFT shift `[[0],[0],[1]]`
(output step `t` = input step `(t + offset) mod L`), not the documented
right shift `[[0],[1],[0]]` (input step `(t - offset) mod L`): the comment
at lines 9-12 says the sign of the shift must be changed, but the code
never changes it. -/
theorem rotate_shifts_left_not_right :
    rotate [[(1 : ℤ)], [0], [0]] (1/3) 3 = [[(0 : ℤ)], [0], [1]] ∧
    rotate [[(1 : ℤ)], [0], [0]] (1/3) 3 ≠ [[(0 : ℤ)], [1], [0]] := by
  have hs : shiftAmount (1/3) 3 = 1 := by
    unfold shiftAmount
    rw [if_pos (by norm_num : (-1 : ℚ) ≤ 1/3 ∧ (1/3 : ℚ) ≤ 1)]
    rw [npRound_eq_of_eq_intCast _ 1 (by norm_num)]
    rfl
  constructor
  · unfold rotate
    rw [hs]
    rfl
  · unfold rotate
    rw [hs]
    decide

/-! ### Control channel markers (`generate_batch`, lines 69-76 and 100-104) -/

def pos : Row := [0, 0, 0]

def ctrl_data : Row := [0, 0, 0]

def ctrl_dummy : Row := [0, 0, 1]

def ctrl_inter : Row := [1, 1, 0]

/-- `ctrl_xy = np.zeros_like(ctrl_data); ctrl_xy[1] = 1` (lines 101-102). -/
def ctrl_xy : Row := [0, 1, 0]

/-- Modelled from the spec: the repository's `utils.add_ctrl` is not in the
provided sources.  Per the spec it concatenates the control pattern,
broadcast over batch and time, onto the data block along the bit axis; with
the insertion point `pos = [0,0,0]` used throughout the caller the control
bits come first. -/
def add_ctrl (blk : Block) (ctrl : Row) (_insertion : Row) : Block :=
  blk.map (fun row => ctrl ++ row)

/-- Modelled from the spec: the repository's `utils.augment` is not in the
provided sources.  Per the spec it decomposes a raw `[batch, length,
data_bits]` block into (a) a leading marker row tagged `ctrl_start` (only
when `add_marker_data` is true, data bits zero), (b) the data block tagged
with the `DATA` marker, and (c) a trailing dummy block of the same length,
zero-filled in the data bits and tagged with the `DUMMY` marker. -/
def augment (blk : Block) (data_bits : ℕ) (ctrl_start : Row) (add_marker_data : Bool) :
    List Block :=
  (if add_marker_data
    then [add_ctrl [List.replicate data_bits 0] ctrl_start pos, add_ctrl blk ctrl_data pos]
    else [add_ctrl blk ctrl_data pos])
  ++ [add_ctrl (blk.map (fun _ => List.replicate data_bits 0)) ctrl_dummy pos]

/-- The single separator row between the dummies of x and y at the end of
the sequence (line 100): `add_ctrl(np.zeros((batch, 1, data_bits)), ctrl_inter, pos)`. -/
def inter_seq (data_bits : ℕ) : Block :=
  add_ctrl [List.replicate data_bits 0] ctrl_inter pos

/-- The marker row between sub-sequences x and y (line 104). -/
def inter_xy (data_bits : ℕ) : Block :=
  add_ctrl [List.replicate data_bits 0] ctrl_xy pos

/-- Embedding of `data_1` (line 107), per batch element: for each pair
`(x, y)` of drawn sub-sequences, `a[:-1]`, the `inter_xy` marker, the
rotated data part of `y`, and the dummy part of `y`. -/
def data_1 (data_bits : ℕ) (rot : ℚ) (xs ys : List Block) : List Block :=
  ((xs.zip ys).map (fun p =>
    (augment p.1 data_bits [1, 0, 0] true).dropLast ++ [inter_xy data_bits]
      ++ [rotate ((augment p.2 data_bits [0, 1, 0] false).getD 0 [])
            rot ((augment p.2 data_bits [0, 1, 0] false).getD 0 []).length]
      ++ [(augment p.2 data_bits [0, 1, 0] false).getD 1 []])).flatten

/-- Embedding of `data_2` (line 110), per batch element: the dummy part of
each augmented `x`, with its first time-step dropped (`a[-1][:, 1:, :]`). -/
def data_2 (data_bits : ℕ) (xs : List Block) : List Block :=
  xs.map (fun x => ((augment x data_bits [1, 0, 0] true).getLast?.getD []).drop 1)

/-- Embedding of the `inputs` concatenation (line 113) for one batch
element, given that element's drawn sub-sequences. -/
def buildInputs (data_bits : ℕ) (rot : ℚ) (xs ys : List Block) : Block :=
  (data_1 data_bits rot xs ys ++ [inter_seq data_bits] ++ data_2 data_bits xs).flatten

/-- Embedding of the per-row mask computation (lines 120-123): the running
product of `inputs[..., i] == 1` over `i = 0 .. control_bits - 1`, i.e. the
conjunction that every one of the first `control_bits` channels equals 1. -/
def maskRow (control_bits : ℕ) (row : Row) : Bool :=
  (row.take control_bits).all (fun v => v == 1)

/-- Embedding of the mask tensor (lines 120-123) for one batch element. -/
def maskOf (control_bits : ℕ) (blk : Block) : List Bool :=
  blk.map (maskRow control_bits)

/-- Embedding of `inputs[:, mask[0], 0:control_bits] = 0` (line 126): at
every time-step selected by the mask, the first `control_bits` channels are
overwritten with 0; everything else is untouched. -/
def zeroCtrlAtMask (control_bits : ℕ) (m : List Bool) (blk : Block) : Block :=
  List.zipWith
    (fun sel row =>
      if sel then (row.take control_bits).map (fun _ => (0 : ℤ)) ++ row.drop control_bits
      else row)
    m blk

/-- Row-by-row scatter used by `target_with_dummies[:, mask[0], :] = target`
(line 130): masked time-steps consume the next target row in order,
unmasked time-steps stay zero. -/
def scatterRows (data_bits : ℕ) : List Bool → Block → Block
  | [], _ => []
  | true :: ms, t :: ts => t :: scatterRows data_bits ms ts
  | true :: ms, [] => List.replicate data_bits 0 :: scatterRows data_bits ms []
  | false :: ms, ts => List.replicate data_bits 0 :: scatterRows data_bits ms ts

/-- Embedding of lines 129-130: PyTorch's masked assignment requires the
number of selected time-steps to equal the target's time extent, otherwise
the call fails; failure is `none`. -/
def scatterTarget (data_bits : ℕ) (m : List Bool) (target : Block) : Option Block :=
  if m.count true = target.length then some (scatterRows data_bits m target) else none

/-- Embedding of `generate_batch` (lines 58-132) for one batch element,
with the random draws passed explicitly: `xs`/`ys` are the drawn x and y
sub-sequence blocks of that element.  `target = np.concatenate(y + x)`
(line 91) uses the unrotated y blocks.  Returns `none` when the masked
scatter of the target fails. -/
def generateElem (control_bits data_bits : ℕ) (rot : ℚ) (xs ys : List Block) :
    Option (Block × Block × List Bool) :=
  let inputs := buildInputs data_bits rot xs ys
  let target := (ys ++ xs).flatten
  let m := maskOf control_bits inputs
  match scatterTarget data_bits m target with
  | none => none
  | some twd => some (zeroCtrlAtMask control_bits m inputs, twd, m)

/-- Configuration surface of `InterruptionSwapRecall.__init__` (lines 39-56). -/
structure Config where
  batch_size : ℕ
  control_bits : ℕ
  data_bits : ℕ
  min_sequence_length : ℕ
  max_sequence_length : ℕ
  num_subseq_min : ℕ
  num_subseq_max : ℕ
  bias : ℚ
  num_rotation : ℚ

/-- The configuration checks the code runs before any episode content is
produced, in source order: the two `assert`s of `__init__` (lines 45-46),
then the `np.random.randint(low, high)` argument checks (`low < high`) for
the sub-sequence count (line 79) and the sub-sequence lengths (lines
83-84), then the `np.random.binomial(1, bias, ...)` probability check
(lines 87-88). -/
def validateConfig (c : Config) : Except String Unit :=
  if 3 ≤ c.control_bits then
    if 1 ≤ c.data_bits then
      if c.num_subseq_min < c.num_subseq_max + 1 then
        if c.min_sequence_length < c.max_sequence_length + 1 then
          if 0 ≤ c.bias ∧ c.bias ≤ 1 then Except.ok ()
          else Except.error "binomial: p outside the unit interval"
        else Except.error "randint: low >= high"
      else Except.error "randint: low >= high"
    else Except.error "Problem requires at least 1 data bit"
  else Except.error "Problem requires at least 3 control bits"

/-- The full generation pipeline for one batch element: configuration
checks first, then the episode; any check failure aborts with the error
and no partial episode. -/
def runGenerate (c : Config) (xs ys : List Block) :
    Except String (Block × Block × List Bool) :=
  match validateConfig c with
  | .error e => .error e
  | .ok _ =>
    match generateElem c.control_bits c.data_bits c.num_rotation xs ys with
    | none => .error "masked scatter: shape mismatch"
    | some ep => .ok ep

theorem rotate_zero (b : Block) (L : ℕ) : rotate b 0 L = b := by
  have hs : shiftAmount 0 L = 0 := by
    unfold shiftAmount
    rw [if_pos (by norm_num : (-1 : ℚ) ≤ 0 ∧ (0 : ℚ) ≤ 1)]
    rw [npRound_eq_of_eq_intCast _ 0 (by norm_num), Int.zero_emod]
    rfl
  unfold rotate
  rw [hs]
  simp

theorem length_rotate (b : Block) (q : ℚ) (L : ℕ) : (rotate b q L).length = b.length := by
  unfold rotate
  simp
  omega

theorem row_mem_add_ctrl {blk : Block} {c p row : Row} (h : row ∈ add_ctrl blk c p) :
    ∃ r, row = c ++ r := by
  unfold add_ctrl at h
  rw [List.mem_map] at h
  obtain ⟨r, _, hr⟩ := h
  exact ⟨r, hr.symm⟩

theorem row_mem_rotate {b : Block} {q : ℚ} {L : ℕ} {row : Row} (h : row ∈ rotate b q L) :
    row ∈ b := by
  unfold rotate at h
  rcases List.mem_append.mp h with h | h
  · exact List.mem_of_mem_drop h
  · exact List.mem_of_mem_take h

theorem maskRow_append_false {cb : ℕ} {c r : Row} (hcb : 3 ≤ cb) (hlen : c.length = 3)
    (hc : c.all (fun v => v == 1) = false) : maskRow cb (c ++ r) = false := by
  unfold maskRow
  rw [List.take_append_eq_append_take, List.take_of_length_le (by omega), List.all_append, hc]
  rfl

/-- Every time-step row assembled into the inputs tensor starts with one of
the five 3-wide control patterns, none of which is all-ones. -/
theorem mem_buildInputs_row {db : ℕ} {rot : ℚ} {xs ys : List Block} {row : Row}
    (h : row ∈ buildInputs db rot xs ys) :
    ∃ c r, row = c ++ r ∧ c.length = 3 ∧ c.all (fun v => v == 1) = false := by
  unfold buildInputs at h
  rw [List.mem_flatten] at h
  obtain ⟨blk, hblk, hrow⟩ := h
  rw [List.append_assoc, List.mem_append, List.mem_append] at hblk
  rcases hblk with hblk | hblk | hblk
  · -- data_1
    unfold data_1 at hblk
    rw [List.mem_flatten] at hblk
    obtain ⟨l, hl, hbl⟩ := hblk
    rw [List.mem_map] at hl
    obtain ⟨p, _, hp⟩ := hl
    subst hp
    have hflat : (augment p.1 db [1, 0, 0] true).dropLast ++ [inter_xy db]
        ++ [rotate ((augment p.2 db [0, 1, 0] false).getD 0 []) rot
              ((augment p.2 db [0, 1, 0] false).getD 0 []).length]
        ++ [(augment p.2 db [0, 1, 0] false).getD 1 []] =
        [add_ctrl [List.replicate db 0] [1, 0, 0] pos,
         add_ctrl p.1 ctrl_data pos,
         inter_xy db,
         rotate (add_ctrl p.2 ctrl_data pos) rot (add_ctrl p.2 ctrl_data pos).length,
         add_ctrl (p.2.map (fun _ => List.replicate db 0)) ctrl_dummy pos] := rfl
    rw [hflat] at hbl
    simp only [List.mem_cons, List.not_mem_nil, or_false] at hbl
    rcases hbl with hbl | hbl | hbl | hbl | hbl
    · subst hbl
      obtain ⟨r, hr⟩ := row_mem_add_ctrl hrow
      exact ⟨[1, 0, 0], r, hr, by decide, by decide⟩
    · subst hbl
      obtain ⟨r, hr⟩ := row_mem_add_ctrl hrow
      exact ⟨ctrl_data, r, hr, by decide, by decide⟩
    · subst hbl
      obtain ⟨r, hr⟩ := row_mem_add_ctrl hrow
      exact ⟨ctrl_xy, r, hr, by decide, by decide⟩
    · subst hbl
      obtain ⟨r, hr⟩ := row_mem_add_ctrl (row_mem_rotate hrow)
      exact ⟨ctrl_data, r, hr, by decide, by decide⟩
    · subst hbl
      obtain ⟨r, hr⟩ := row_mem_add_ctrl hrow
      exact ⟨ctrl_dummy, r, hr, by decide, by decide⟩
  · -- inter_seq
    rw [List.mem_singleton] at hblk
    subst hblk
    obtain ⟨r, hr⟩ := row_mem_add_ctrl hrow
    exact ⟨ctrl_inter, r, hr, by decide, by decide⟩
  · -- data_2
    unfold data_2 at hblk
    rw [List.mem_map] at hblk
    obtain ⟨x, _, hx⟩ := hblk
    subst hx
    have hrow2 : row ∈ (augment x db [1, 0, 0] true).getLast?.getD [] :=
      List.mem_of_mem_drop hrow
    have hg : (augment x db [1, 0, 0] true).getLast?.getD [] =
        add_ctrl (x.map (fun _ => List.replicate db 0)) ctrl_dummy pos := rfl
    rw [hg] at hrow2
    obtain ⟨r, hr⟩ := row_mem_add_ctrl hrow2
    exact ⟨ctrl_dummy, r, hr, by decide, by decide⟩

/-- The mask computed by lines 120-123 is identically false: no assembled
control pattern is all-ones on the first three channels. -/
theorem maskOf_buildInputs_false {cb db : ℕ} {rot : ℚ} {xs ys : List Block} (hcb : 3 ≤ cb) :
    maskOf cb (buildInputs db rot xs ys) =
      List.replicate (buildInputs db rot xs ys).length false := by
  unfold maskOf
  rw [List.eq_replicate_iff]
  refine ⟨by simp, ?_⟩
  intro bo hbo
  rw [List.mem_map] at hbo
  obtain ⟨row, hrow, hb⟩ := hbo
  obtain ⟨c, r, hcr, hlen, hc⟩ := mem_buildInputs_row hrow
  rw [← hb, hcr]
  exact maskRow_append_false hcb hlen hc

/-- Total time extent of the assembled inputs: per pair a start-of-x row,
the x data, the x/y marker row, the rotated y data and the y dummies, plus
the single inter-sequence row, plus each x dummy block with its first row
dropped. -/
theorem buildInputs_length (db : ℕ) (rot : ℚ) (xs ys : List Block) :
    (buildInputs db rot xs ys).length =
      ((xs.zip ys).map (fun p => 2 + p.1.length + 2 * p.2.length)).sum
        + 1 + (xs.map (fun x => x.length - 1)).sum := by
  unfold buildInputs
  rw [List.length_flatten, List.map_append, List.map_append, List.sum_append, List.sum_append]
  have h1 : ((data_1 db rot xs ys).map List.length).sum
      = ((xs.zip ys).map (fun p => 2 + p.1.length + 2 * p.2.length)).sum := by
    unfold data_1
    rw [List.map_flatten, List.sum_flatten, List.map_map, List.map_map]
    apply congrArg List.sum
    apply List.map_congr_left
    intro p _
    have hflat : (augment p.1 db [1, 0, 0] true).dropLast ++ [inter_xy db]
        ++ [rotate ((augment p.2 db [0, 1, 0] false).getD 0 []) rot
              ((augment p.2 db [0, 1, 0] false).getD 0 []).length]
        ++ [(augment p.2 db [0, 1, 0] false).getD 1 []] =
        [add_ctrl [List.replicate db 0] [1, 0, 0] pos,
         add_ctrl p.1 ctrl_data pos,
         inter_xy db,
         rotate (add_ctrl p.2 ctrl_data pos) rot (add_ctrl p.2 ctrl_data pos).length,
         add_ctrl (p.2.map (fun _ => List.replicate db 0)) ctrl_dummy pos] := rfl
    simp only [Function.comp_apply]
    rw [hflat]
    simp [length_rotate, add_ctrl, inter_xy]
    omega
  have h3 : ((data_2 db xs).map List.length).sum = (xs.map (fun x => x.length - 1)).sum := by
    unfold data_2
    rw [List.map_map]
    apply congrArg List.sum
    apply List.map_congr_left
    intro x _
    have hg : (augment x db [1, 0, 0] true).getLast?.getD [] =
        add_ctrl (x.map (fun _ => List.replicate db 0)) ctrl_dummy pos := rfl
    simp only [Function.comp, hg, List.length_drop, add_ctrl, List.length_map]
  rw [h1, h3]
  simp [inter_seq, add_ctrl]

/-- C3: the mask computed by `generate_batch` is identical for any two
batch elements: it depends only on the per-episode length profile of the
drawn sub-sequences (shared across the batch), not on the drawn bits. -/
theorem mask_identical_across_batch {cb db : ℕ} {rot : ℚ} {xs ys xs2 ys2 : List Block}
    (hcb : 3 ≤ cb) (hx : xs.map List.length = xs2.map List.length)
    (hy : ys.map List.length = ys2.map List.length) :
    maskOf cb (buildInputs db rot xs ys) = maskOf cb (buildInputs db rot xs2 ys2) := by
  rw [maskOf_buildInputs_false hcb, maskOf_buildInputs_false hcb]
  have e1 : ∀ (as bs : List Block),
      ((as.zip bs).map (fun p => 2 + p.1.length + 2 * p.2.length)).sum
        = (((as.map List.length).zip (bs.map List.length)).map
            (fun p => 2 + p.1 + 2 * p.2)).sum := by
    intro as bs
    rw [List.zip_map, List.map_map]
    apply congrArg List.sum
    apply List.map_congr_left
    intro p _
    cases p
    rfl
  have e2 : ∀ (as : List Block), (as.map (fun x => x.length - 1)).sum
      = ((as.map List.length).map (fun n => n - 1)).sum := by
    intro as
    rw [List.map_map]
    rfl
  have hlen2 : (buildInputs db rot xs ys).length = (buildInputs db rot xs2 ys2).length := by
    rw [buildInputs_length, buildInputs_length, e1, e1, e2, e2, hx, hy]
  rw [hlen2]

/-- Closed witness for `mask_identical_across_batch`: two batch elements
with the same length profile but different drawn bits. -/
theorem mask_identical_across_batch_witness :
    maskOf 3 (buildInputs 1 0 [[[1]]] [[[0]]]) = maskOf 3 (buildInputs 1 0 [[[0]]] [[[1]]]) :=
  mask_identical_across_batch (by decide) (by decide) (by decide)

/-- The fully evaluated inputs tensor of the minimal episode: one pair,
`x = [[1]]`, `y = [[0]]`, one data bit, rotation 0.  Rows in order:
start-of-x marker, x data, x/y marker, (un)rotated y data, y dummy,
inter-sequence marker; the x dummy loses its only row to `[:, 1:, :]`. -/
theorem inputs0_eq : buildInputs 1 0 [[[1]]] [[[0]]] =
    [[1, 0, 0, 0], [0, 0, 0, 1], [0, 1, 0, 0], [0, 0, 0, 0], [0, 0, 1, 0], [1, 1, 0, 0]] := by
  simp only [buildInputs, data_1, data_2, rotate_zero]
  rfl

/-- C2 (code bug): the mask computed at lines 120-123 tests whether ALL
control channels equal 1, so it is false even at a time-step whose control
slice is exactly the DUMMY pattern `[0,0,1]` (row 4 of the minimal
episode); the claimed mask would be true there. -/
theorem mask_never_matches_dummy :
    ((buildInputs 1 0 [[[1]]] [[[0]]]).getD 4 []).take 3 = ctrl_dummy ∧
    maskOf 3 (buildInputs 1 0 [[[1]]] [[[0]]]) = List.replicate 6 false := by
  rw [inputs0_eq]
  decide

/-- C4 (code bug): with the mask identically false, the masked scatter of
the raw targets (2 target rows, 0 selected time-steps) fails, so
`generate_batch` returns no episode at all, let alone one whose masked
time-steps reproduce `targets_raw`. -/
theorem generate_scatter_fails :
    generateElem 3 1 0 [[[1]]] [[[0]]] = none := by
  unfold generateElem
  rw [inputs0_eq]
  decide

/-- C5 (code bug): the total time of the minimal episode obeys
`2*ΣLx + 2*ΣLy + n + 1 = 6`, but the mask has 0 true entries instead of
the claimed `ΣLx = 1`. -/
theorem episode_length_and_mask_count :
    (buildInputs 1 0 [[[1]]] [[[0]]]).length = 2 * 1 + 2 * 1 + 1 + 1 ∧
    (maskOf 3 (buildInputs 1 0 [[[1]]] [[[0]]])).count true = 0 := by
  rw [inputs0_eq]
  decide

/-- C7: a configuration violating any of the five validity conditions
makes the generator fail at the configuration checks; no episode (partial
or otherwise) is produced. -/
theorem invalid_config_fails_fast (c : Config)
    (h : c.control_bits < 3 ∨ c.data_bits < 1 ∨ c.max_sequence_length < c.min_sequence_length
      ∨ c.num_subseq_max < c.num_subseq_min ∨ c.bias < 0 ∨ 1 < c.bias) :
    ∃ e, validateConfig c = Except.error e ∧
      ∀ xs ys, runGenerate c xs ys = Except.error e := by
  have hv : ∃ e, validateConfig c = Except.error e := by
    unfold validateConfig
    split_ifs with h1 h2 h3 h4 h5
    all_goals try exact ⟨_, rfl⟩
    exfalso
    rcases h with hc | hc | hc | hc | hc | hc
    · omega
    · omega
    · omega
    · omega
    · linarith [h5.1]
    · linarith [h5.2]
  obtain ⟨e, he⟩ := hv
  refine ⟨e, he, fun xs ys => ?_⟩
  unfold runGenerate
  rw [he]

/-- Closed witness for `invalid_config_fails_fast`: a configuration with
only 2 control bits. -/
theorem invalid_config_fails_fast_witness :
    ∃ e, validateConfig ⟨1, 2, 1, 1, 1, 1, 1, 1/2, 0⟩ = Except.error e ∧
      ∀ xs ys, runGenerate ⟨1, 2, 1, 1, 1, 1, 1, 1/2, 0⟩ xs ys = Except.error e :=
  invalid_config_fails_fast ⟨1, 2, 1, 1, 1, 1, 1, 1/2, 0⟩ (Or.inl (by decide))

theorem zeroRow_drop (cb : ℕ) (row : Row) :
    (((row.take cb).map (fun _ => (0 : ℤ))) ++ row.drop cb).drop cb = row.drop cb := by
  rw [List.drop_append_eq_append_drop]
  rw [List.drop_eq_nil_of_le (by simp [List.length_take])]
  rcases le_or_lt cb row.length with h | h
  · have h0 : cb - ((row.take cb).map (fun _ => (0 : ℤ))).length = 0 := by
      simp [List.length_take]
      omega
    rw [h0]
    simp
  · have h1 : row.drop cb = [] := List.drop_eq_nil_of_le (by omega)
    simp [h1]

/-- C9 (frame effect of line 126): zeroing the control channels at the
masked time-steps leaves the data channels of every time-step unchanged,
and leaves every unmasked time-step entirely unchanged; the mask used is
the one computed from the raw inputs before this mutation. -/
theorem zero_ctrl_mask_frame (cb : ℕ) (inp : Block) :
    (∀ t, ((zeroCtrlAtMask cb (maskOf cb inp) inp).getD t []).drop cb
        = (inp.getD t []).drop cb) ∧
    (∀ t, (maskOf cb inp).getD t false = false →
        (zeroCtrlAtMask cb (maskOf cb inp) inp).getD t [] = inp.getD t []) := by
  induction inp with
  | nil =>
    constructor
    · intro t
      simp [zeroCtrlAtMask, maskOf]
    · intro t _
      simp [zeroCtrlAtMask, maskOf]
  | cons row rest ih =>
    have hstep : zeroCtrlAtMask cb (maskOf cb (row :: rest)) (row :: rest) =
        (if maskRow cb row then (row.take cb).map (fun _ => (0 : ℤ)) ++ row.drop cb else row)
          :: zeroCtrlAtMask cb (maskOf cb rest) rest := rfl
    constructor
    · intro t
      cases t with
      | zero =>
        rw [hstep]
        simp only [List.getD_cons_zero]
        by_cases hm : maskRow cb row
        · rw [if_pos hm]
          exact zeroRow_drop cb row
        · rw [if_neg hm]
      | succ n =>
        rw [hstep]
        simp only [List.getD_cons_succ]
        exact ih.1 n
    · intro t hm
      cases t with
      | zero =>
        have hm0 : maskRow cb row = false := by
          simpa [maskOf] using hm
        rw [hstep]
        simp [hm0]
      | succ n =>
        have hmn : (maskOf cb rest).getD n false = false := by
          simpa [maskOf] using hm
        rw [hstep]
        simp only [List.getD_cons_succ]
        exact ih.2 n hmn

/-- Closed witness for `zero_ctrl_mask_frame`: a single unmasked DUMMY row
is untouched by the control-channel reset. -/
theorem zero_ctrl_mask_frame_witness :
    (zeroCtrlAtMask 3 (maskOf 3 [[0, 0, 1, 7]]) [[0, 0, 1, 7]]).getD 0 []
      = ([0, 0, 1, 7] : Row) :=
  (zero_ctrl_mask_frame 3 [[0, 0, 1, 7]]).2 0 (by decide)
